import Mathlib

/-!
Verification of the Splitwise authentication core (Go) against its
natural-language specification.

The embedding follows the source:
  * `internal/domain/auth/auth_service.go` — the authentication service
    (`service.SignUp`, `service.Login`, `hashPassword`, `verifyPassword`,
    `generateJWTToken`);
  * the auth repository (`repository.CreateUser`, `repository.GetUserByEmail`,
    `repository.UserExistsByEmail`) backed by the `users` table of
    `migrations/000001_init.up.sql`;
  * `internal/domain/user/models.go` — the `User` record and its JSON tags.

Go `time.Time` values are modelled as `Int` (Unix seconds), `uuid.UUID`
values as `String`.  Go's `(T, error)` return shape is modelled as
`Except GoErr T`; a `(*T, error)` shape, where both components may be nil,
as `Except GoErr (Option T)`.
-/

namespace Splitwise

/-- Error values of the Go code.  Each named `errors.New` value of
`auth_service.go` is one constructor; Go compares these by identity, which
constructor equality reflects.  `pgxNoRows` is the driver's
`pgx.ErrNoRows`; `uniqueViolation` is a Postgres unique-constraint
violation (SQLSTATE 23505) tagged with the constraint name; `storage`
stands for any other persistence error. -/
inductive GoErr where
  | userAlreadyExists
  | invalidPassword
  | userNotFound
  | tokenGeneration
  | pgxNoRows
  | uniqueViolation (constraint : String)
  | storage (msg : String)
  deriving Repr, DecidableEq

/-- Failure values of the bcrypt comparison
(`bcrypt.CompareHashAndPassword`): the hash does not parse as a bcrypt
hash, or it parses and the recomputed digest differs. -/
inductive BcryptError where
  | invalidHash
  | mismatchedHashAndPassword
  deriving Repr, DecidableEq

/-- Modelled from the spec: the bcrypt digest core
(`golang.org/x/crypto/bcrypt`) is a library dependency, not under `src/`.
The spec describes it as a deliberately slow, salted one-way digest; the
computational properties (slowness, one-wayness, collision resistance) are
idealised as an encoding that is injective in the password for a fixed
cost and salt.  Only injectivity and the output shape are used by any
theorem below. -/
def bcryptDigestFn (cost : Nat) (salt : String) (password : String) : String :=
  toString cost ++ "/" ++ salt ++ "/" ++ password

/-- A well-formed bcrypt hash, kept in parsed form.  The Go code stores the
hash as the string `"$" ++ version ++ "$" ++ cost ++ "$" ++ salt ++ digest`;
`BcryptHash.render` produces that string.  Keeping the components avoids
re-parsing the string in the comparison model. -/
structure BcryptHash where
  version : String
  cost : Nat
  salt : String
  digest : String
  deriving Repr, DecidableEq

/-- The bcrypt hash string corresponding to a parsed hash. -/
def BcryptHash.render (h : BcryptHash) : String :=
  "$" ++ h.version ++ "$" ++ toString h.cost ++ "$" ++ h.salt ++ h.digest

/-- A Go string holding a stored password hash: every string is either a
well-formed bcrypt hash (kept parsed) or some other string. -/
inductive HashString where
  | wellFormed (h : BcryptHash)
  | malformed (raw : String)
  deriving Repr, DecidableEq

/-- The underlying Go string of a stored hash value. -/
def HashString.render : HashString → String
  | .wellFormed h => h.render
  | .malformed raw => raw

/-- Modelled from the spec: `bcrypt.GenerateFromPassword`.  The salt the
library draws at random is passed explicitly, so theorems can quantify
over every salt the hashing function may choose.  The spec treats hashing
failure as possible only under malformed input or resource exhaustion,
neither of which the model produces, so generation always succeeds. -/
def bcryptGenerateFromPassword (password : String) (cost : Nat) (salt : String) :
    Except GoErr BcryptHash :=
  .ok { version := "2a", cost := cost, salt := salt,
        digest := bcryptDigestFn cost salt password }

/-- Modelled from the spec: `bcrypt.CompareHashAndPassword` re-derives the
digest from the cost and salt embedded in the hash and compares; an
unparseable hash fails with a distinct error. -/
def bcryptCompareHashAndPassword (hashedPassword : HashString) (password : String) :
    Except BcryptError Unit :=
  match hashedPassword with
  | .malformed _ => .error .invalidHash
  | .wellFormed h =>
      if h.digest = bcryptDigestFn h.cost h.salt password then .ok ()
      else .error .mismatchedHashAndPassword

/-- Source `hashPassword` (auth_service.go): bcrypt with cost 12. -/
def hashPassword (password : String) (salt : String) : Except GoErr BcryptHash :=
  bcryptGenerateFromPassword password 12 salt

/-- Source `verifyPassword` (auth_service.go): delegate to the bcrypt
comparison. -/
def verifyPassword (hashedPassword : HashString) (password : String) :
    Except BcryptError Unit :=
  bcryptCompareHashAndPassword hashedPassword password

/-- Source `user.User` (models.go).  Field types follow the Go struct;
`passwordHash` (Go `string`) is kept in the parsed `HashString` form,
related to the Go string by `HashString.render`. -/
structure User where
  id : String
  firstName : String
  lastName : String
  dateOfBirth : Option Int
  email : String
  passwordHash : HashString
  phoneNumber : Option String
  createdAt : Int
  updatedAt : Int
  deletedAt : Option Int
  deriving Repr, DecidableEq

/-- Source `user.CreateUserParams` (models.go). -/
structure CreateUserParams where
  firstName : String
  lastName : String
  dateOfBirth : Option Int
  email : String
  passwordHash : HashString
  phoneNumber : Option String
  deriving Repr, DecidableEq

/-- Source `auth.SignUpParams` (auth_service.go). -/
structure SignUpParams where
  firstName : String
  lastName : String
  dateOfBirth : Option Int
  email : String
  password : String
  phoneNumber : Option String
  deriving Repr, DecidableEq

/-- JSON serialization of a `User` per the struct tags of models.go:
fields are emitted in declaration order under their tagged keys; fields
tagged `omitempty` are dropped when nil; `PasswordHash` is tagged `"-"`
and is never emitted.  Values are rendered to strings. -/
def userJSON (u : User) : List (String × String) :=
  [("id", u.id), ("first_name", u.firstName), ("last_name", u.lastName)]
    ++ (match u.dateOfBirth with
        | none => []
        | some d => [("date_of_birth", toString d)])
    ++ [("email", u.email)]
    ++ (match u.phoneNumber with
        | none => []
        | some p => [("phone_number", p)])
    ++ [("created_at", toString u.createdAt), ("updated_at", toString u.updatedAt)]
    ++ (match u.deletedAt with
        | none => []
        | some d => [("deleted_at", toString d)])

/-- Registered JWT claims as populated by `generateJWTToken`
(jwt.RegisteredClaims).  Times are Unix seconds, the precision of
`jwt.NewNumericDate`. -/
structure RegisteredClaims where
  expiresAt : Int
  issuedAt : Int
  notBefore : Int
  issuer : String
  subject : String
  deriving Repr, DecidableEq

/-- Source `auth.Claims`: the custom `user_id` claim plus the registered
claims. -/
structure JWTClaims where
  userID : String
  registered : RegisteredClaims
  deriving Repr, DecidableEq

/-- Source `jwtExpiry = 24 * time.Hour`, in seconds. -/
def jwtExpiry : Int := 24 * 60 * 60

/-- Modelled from the spec: validity of a token at a time `t` under the
standard JWT temporal checks the spec names — not valid before
`not-before`, invalid after `expiry`. -/
def claimsValidAt (c : RegisteredClaims) (t : Int) : Bool :=
  c.notBefore ≤ t && t ≤ c.expiresAt

/-- Source `generateJWTToken` (auth_service.go).  Every call to
`time.Now()` inside the function is modelled by the single issuance
instant `now`; the signing step (HMAC-SHA256 over the claims) is
identity-modelled, the token being its claims.  Signing failure is mapped
to `ErrTokenGeneration` in the source; the model's signing never fails. -/
def generateJWTToken (userID : String) (now : Int) : Except GoErr JWTClaims :=
  .ok { userID := userID,
        registered := { expiresAt := now + jwtExpiry, issuedAt := now,
                        notBefore := now, issuer := "splitwise-clone",
                        subject := userID } }

/-- The store calls and cryptographic routines the service invokes, in
order, recorded so that non-invocation claims are provable. -/
inductive AuthEvent where
  | existsCheck
  | hashCall
  | createCall
  | getUserCall
  | verifyCall
  | tokenCall
  deriving Repr, DecidableEq

/-- Source `auth.Repository` (the store interface): the three operations,
over an abstract store state `σ`.  `CreateUser` may change the state; the
two queries only read it.  Go's `(*user.User, error)` of `GetUserByEmail`
is `Except GoErr (Option User)`: an error, or an optional record. -/
structure Repo (σ : Type) where
  userExistsByEmail : σ → String → Except GoErr Bool
  createUser : σ → CreateUserParams → Except GoErr (User × σ)
  getUserByEmail : σ → String → Except GoErr (Option User)

/-- Result of one `SignUp` call: the Go return value, the store state
after the call, and the calls the service made. -/
structure SignUpOutcome (σ : Type) where
  result : Except GoErr User
  state : σ
  events : List AuthEvent

/-- Source `service.SignUp` (auth_service.go): existence pre-check, then
bcrypt hashing, then `CreateUser`; every error is returned as-is except
that a positive pre-check yields `ErrUserAlreadyExists`. -/
def signUp (r : Repo σ) (s : σ) (params : SignUpParams) (salt : String) :
    SignUpOutcome σ :=
  match r.userExistsByEmail s params.email with
  | .error e => ⟨.error e, s, [.existsCheck]⟩
  | .ok true => ⟨.error .userAlreadyExists, s, [.existsCheck]⟩
  | .ok false =>
    match hashPassword params.password salt with
    | .error e => ⟨.error e, s, [.existsCheck, .hashCall]⟩
    | .ok hashed =>
      let createParams : CreateUserParams :=
        { firstName := params.firstName, lastName := params.lastName,
          dateOfBirth := params.dateOfBirth, email := params.email,
          passwordHash := .wellFormed hashed, phoneNumber := params.phoneNumber }
      match r.createUser s createParams with
      | .error e => ⟨.error e, s, [.existsCheck, .hashCall, .createCall]⟩
      | .ok (newUser, s1) => ⟨.ok newUser, s1, [.existsCheck, .hashCall, .createCall]⟩

/-- Result of one `Login` call. -/
structure LoginOutcome (σ : Type) where
  result : Except GoErr JWTClaims
  state : σ
  events : List AuthEvent

/-- Source `service.Login` (auth_service.go): lookup, then password
verification (any verification failure becomes `ErrInvalidPassword`), then
token issuance.  `now` is the issuance instant. -/
def login (r : Repo σ) (s : σ) (email password : String) (now : Int) :
    LoginOutcome σ :=
  match r.getUserByEmail s email with
  | .error e => ⟨.error e, s, [.getUserCall]⟩
  | .ok none => ⟨.error .userNotFound, s, [.getUserCall]⟩
  | .ok (some u) =>
    match verifyPassword u.passwordHash password with
    | .error _ => ⟨.error .invalidPassword, s, [.getUserCall, .verifyCall]⟩
    | .ok _ =>
      match generateJWTToken u.id now with
      | .error e => ⟨.error e, s, [.getUserCall, .verifyCall, .tokenCall]⟩
      | .ok tok => ⟨.ok tok, s, [.getUserCall, .verifyCall, .tokenCall]⟩

/-- State of the `users` table together with the generators the database
supplies: a fresh-identifier counter standing for `gen_random_uuid()` and
a clock standing for `NOW()`. -/
structure DBState where
  rows : List User
  nextId : Nat
  clock : Int
  deriving Repr, DecidableEq

/-- Row predicate of the repository queries: `email = $1 AND deleted_at IS
NULL`. -/
def rowLive (email : String) (u : User) : Bool :=
  u.email == email && u.deletedAt == none

/-- Semantics of the `SELECT ... FROM users WHERE email = $1 AND
deleted_at IS NULL` query of `GetUserByEmail`: the first matching row, if
any. -/
def sqlFindByEmail (rows : List User) (email : String) : Option User :=
  rows.find? (rowLive email)

/-- Semantics of the `SELECT EXISTS(SELECT 1 FROM users WHERE email = $1
AND deleted_at IS NULL)` query of `UserExistsByEmail`. -/
def sqlExistsByEmail (rows : List User) (email : String) : Bool :=
  rows.any (rowLive email)

/-- Semantics of the `INSERT INTO users ...` of `CreateUser` under the
schema of `000001_init.up.sql`: `email` carries an unconditional `UNIQUE`
constraint and `phone_number` a `UNIQUE` constraint among non-null values
— both range over every row, soft-deleted rows included.  A violation is
SQLSTATE 23505 with the violated constraint's name.  On success the row is
inserted with generated id and timestamps and `deleted_at` null, and the
`RETURNING` clause hands it back. -/
def sqlInsertUser (s : DBState) (p : CreateUserParams) :
    Except GoErr (User × DBState) :=
  if s.rows.any (fun u => u.email == p.email) then
    .error (.uniqueViolation "users_email_key")
  else if p.phoneNumber.isSome && s.rows.any (fun u => u.phoneNumber == p.phoneNumber) then
    .error (.uniqueViolation "users_phone_number_key")
  else
    let u : User :=
      { id := toString s.nextId, firstName := p.firstName, lastName := p.lastName,
        dateOfBirth := p.dateOfBirth, email := p.email,
        passwordHash := p.passwordHash, phoneNumber := p.phoneNumber,
        createdAt := s.clock, updatedAt := s.clock, deletedAt := none }
    .ok (u, ⟨s.rows ++ [u], s.nextId + 1, s.clock⟩)

/-- The concrete repository of the auth package over a Postgres
connection.  `GetUserByEmail` runs `QueryRow(...).Scan(...)` and returns
`(nil, err)` on any scan error; when the query yields no row, pgx's
`Row.Scan` reports `pgx.ErrNoRows`, so the repository never returns a nil
user with a nil error.  `UserExistsByEmail` scans the boolean of the
`EXISTS` query.  `CreateUser` returns the inserted row or the insert
error unchanged. -/
def pgRepo : Repo DBState where
  userExistsByEmail s email := .ok (sqlExistsByEmail s.rows email)
  createUser s p := sqlInsertUser s p
  getUserByEmail s email :=
    match sqlFindByEmail s.rows email with
    | none => .error .pgxNoRows
    | some u => .ok (some u)

/-- One signup request: the parameters together with the salt bcrypt draws
for it. -/
def signUpStep (s : DBState) (i : SignUpParams × String) : DBState :=
  (signUp pgRepo s i.1 i.2).state

/-- A sequence of signup calls against the Postgres-backed store, each
seeing the state the previous one left. -/
def runSignUps (s : DBState) (seq : List (SignUpParams × String)) : DBState :=
  seq.foldl signUpStep s

/-- Number of non-deleted rows carrying a given email. -/
def liveCount (rows : List User) (email : String) : Nat :=
  (rows.filter (rowLive email)).length

/-- The spec's uniqueness invariant: at most one non-deleted row per
email. -/
def EmailUnique (rows : List User) : Prop :=
  ∀ u ∈ rows, u.deletedAt = none → liveCount rows u.email ≤ 1

instance : DecidablePred EmailUnique := fun rows =>
  inferInstanceAs (Decidable (∀ u ∈ rows, u.deletedAt = none → liveCount rows u.email ≤ 1))

/-- Signup parameters of the spec's Scenario A, used by the concrete
checks. -/
def demoParams : SignUpParams :=
  { firstName := "John", lastName := "Doe", dateOfBirth := none,
    email := "a@x.com", password := "pw12345678", phoneNumber := none }

/-- A store whose existence pre-check reports the email taken. -/
def repoExistsTrue : Repo Unit where
  userExistsByEmail _ _ := .ok true
  createUser _ _ := .error (.storage "unused")
  getUserByEmail _ _ := .error (.storage "unused")

/-- A store whose existence pre-check itself fails. -/
def repoExistsFail : Repo Unit where
  userExistsByEmail _ _ := .error (.storage "db down")
  createUser _ _ := .error (.storage "unused")
  getUserByEmail _ _ := .error (.storage "unused")

/-- A store whose insert hits the unique constraint although the pre-check
saw nothing — the check-then-act race the spec discusses. -/
def repoDupInsert : Repo Unit where
  userExistsByEmail _ _ := .ok false
  createUser _ _ := .error (.uniqueViolation "users_email_key")
  getUserByEmail _ _ := .error (.storage "unused")

/-- A store that returns the given user for every lookup. -/
def mkGetRepo (u : User) : Repo Unit where
  userExistsByEmail _ _ := .ok true
  createUser _ _ := .error (.storage "unused")
  getUserByEmail _ _ := .ok (some u)

/-- The bcrypt hash of the demo password under the salt "SALT". -/
def demoHash : BcryptHash :=
  { version := "2a", cost := 12, salt := "SALT",
    digest := bcryptDigestFn 12 "SALT" "pw12345678" }

/-- A stored user whose hash matches the demo password. -/
def demoUser : User :=
  { id := "42", firstName := "John", lastName := "Doe", dateOfBirth := none,
    email := "a@x.com", passwordHash := .wellFormed demoHash, phoneNumber := none,
    createdAt := 0, updatedAt := 0, deletedAt := none }

/-- A stored user whose password-hash column holds a string that does not
parse as a bcrypt hash (the literal placeholder the package's own test
data uses). -/
def demoUserBadHash : User :=
  { demoUser with passwordHash := .malformed "$2a$12$hashedpassword" }

/-- A soft-deleted user occupying the demo email. -/
def deletedUser : User :=
  { id := "7", firstName := "Olivia", lastName := "Gone", dateOfBirth := none,
    email := "a@x.com", passwordHash := .malformed "oldhash", phoneNumber := none,
    createdAt := 0, updatedAt := 0, deletedAt := some 50 }

/-- A second signup attempt for the demo email by another person. -/
def demoParams2 : SignUpParams := { demoParams with firstName := "Jane" }

/-- The row the Postgres store creates for the demo signup on an empty
table (id counter 0, clock 0). -/
def demoCreated : User :=
  { id := "0", firstName := "John", lastName := "Doe", dateOfBirth := none,
    email := "a@x.com", passwordHash := .wellFormed demoHash, phoneNumber := none,
    createdAt := 0, updatedAt := 0, deletedAt := none }

/-- The table state after the demo signup on an empty table. -/
def demoDB1 : DBState := { rows := [demoCreated], nextId := 1, clock := 0 }

/-- The token issued at time 1000 for the demo user. -/
def demoTok : JWTClaims :=
  { userID := "42",
    registered := { expiresAt := 1000 + jwtExpiry, issuedAt := 1000,
                    notBefore := 1000, issuer := "splitwise-clone",
                    subject := "42" } }

/-! Helper lemmas shared by the claim theorems. -/

/-- For a fixed cost and salt, the idealised digest determines the
password. -/
theorem bcryptDigestFn_inj {c : Nat} {s p q : String}
    (h : bcryptDigestFn c s p = bcryptDigestFn c s q) : p = q := by
  unfold bcryptDigestFn at h
  have h2 := congrArg String.data h
  simp only [String.data_append] at h2
  exact String.ext (List.append_cancel_left h2)

/-- The rendered bcrypt hash of a password is strictly longer than the
password, hence never equal to it. -/
theorem render_ne_password (password salt : String) (c : Nat) :
    (BcryptHash.mk "2a" c salt (bcryptDigestFn c salt password)).render ≠ password := by
  intro h
  have h2 := congrArg String.length h
  have e1 : ("$" : String).length = 1 := rfl
  have e2 : ("/" : String).length = 1 := rfl
  have e3 : ("2a" : String).length = 2 := rfl
  simp only [BcryptHash.render, bcryptDigestFn, String.length_append, e1, e2, e3] at h2
  omega

/-- Successful generation yields exactly the parsed hash of the model. -/
theorem hashPassword_eq (password salt : String) :
    hashPassword password salt =
      .ok (BcryptHash.mk "2a" 12 salt (bcryptDigestFn 12 salt password)) := rfl

/-- C4: for every password P and every salt the hashing function may
choose, the hash computed at signup uses bcrypt work factor 12, its
rendered string never equals P, verifying it against P succeeds, and
verifying it against any other password fails.  (The bcrypt primitive is
modelled from the spec as an ideal salted one-way digest; see
`bcryptDigestFn`.) -/
theorem hash_roundtrip (password salt : String) (h : BcryptHash)
    (hh : hashPassword password salt = .ok h) :
    h.cost = 12
    ∧ h.render ≠ password
    ∧ verifyPassword (.wellFormed h) password = .ok ()
    ∧ ∀ p', p' ≠ password →
        verifyPassword (.wellFormed h) p' = .error .mismatchedHashAndPassword := by
  rw [hashPassword_eq] at hh
  cases hh
  refine ⟨rfl, render_ne_password password salt 12, ?_, ?_⟩
  · simp [verifyPassword, bcryptCompareHashAndPassword]
  · intro p' hne
    simp only [verifyPassword, bcryptCompareHashAndPassword]
    rw [if_neg]
    intro hdig
    exact hne (bcryptDigestFn_inj hdig).symm

/-- Witness for C4 at the demo password, salt "SALT" and the wrong
password of Scenario D. -/
theorem hash_roundtrip_witness :
    demoHash.cost = 12
    ∧ demoHash.render ≠ "pw12345678"
    ∧ verifyPassword (.wellFormed demoHash) "pw12345678" = .ok ()
    ∧ verifyPassword (.wellFormed demoHash) "wrongpass" = .error .mismatchedHashAndPassword := by
  have h := hash_roundtrip "pw12345678" "SALT" demoHash rfl
  exact ⟨h.1, h.2.1, h.2.2.1, h.2.2.2 "wrongpass" (by decide)⟩

/-- C1: a positive existence pre-check aborts SignUp with
`ErrUserAlreadyExists` before hashing or creating; a failing pre-check
propagates its error, likewise before hashing or creating. -/
theorem signUp_precheck_guards {σ : Type} (r : Repo σ) (s : σ)
    (params : SignUpParams) (salt : String) :
    (r.userExistsByEmail s params.email = .ok true →
      signUp r s params salt = ⟨.error .userAlreadyExists, s, [.existsCheck]⟩
      ∧ AuthEvent.hashCall ∉ (signUp r s params salt).events
      ∧ AuthEvent.createCall ∉ (signUp r s params salt).events)
    ∧ ∀ e, r.userExistsByEmail s params.email = .error e →
      signUp r s params salt = ⟨.error e, s, [.existsCheck]⟩
      ∧ AuthEvent.createCall ∉ (signUp r s params salt).events := by
  constructor
  · intro hex
    have hrun : signUp r s params salt = ⟨.error .userAlreadyExists, s, [.existsCheck]⟩ := by
      unfold signUp
      rw [hex]
    refine ⟨hrun, ?_, ?_⟩ <;> rw [hrun] <;> simp
  · intro e hex
    have hrun : signUp r s params salt = ⟨.error e, s, [.existsCheck]⟩ := by
      unfold signUp
      rw [hex]
    refine ⟨hrun, ?_⟩
    rw [hrun]
    simp

/-- Witness for C1: the taken-email store and the failing store, on the
Scenario A parameters. -/
theorem signUp_precheck_guards_witness :
    (signUp repoExistsTrue () demoParams "SALT").result = .error .userAlreadyExists
    ∧ AuthEvent.createCall ∉ (signUp repoExistsTrue () demoParams "SALT").events
    ∧ (signUp repoExistsFail () demoParams "SALT").result = .error (.storage "db down") := by
  have h1 := (signUp_precheck_guards repoExistsTrue () demoParams "SALT").1 rfl
  have h2 := (signUp_precheck_guards repoExistsFail () demoParams "SALT").2
    (.storage "db down") rfl
  exact ⟨by rw [h1.1], h1.2.2, by rw [h2.1]⟩

/-- C2 counterexample: when the store's create fails with a
unique-constraint violation, SignUp returns that raw error — not
`ErrUserAlreadyExists` as the claim states.  The service performs no
translation of constraint violations. -/
theorem signUp_constraint_untranslated_cex :
    (signUp repoDupInsert () demoParams "SALT").result
      = .error (.uniqueViolation "users_email_key")
    ∧ (signUp repoDupInsert () demoParams "SALT").result
      ≠ .error .userAlreadyExists := by
  refine ⟨rfl, ?_⟩
  intro h
  rw [show (signUp repoDupInsert () demoParams "SALT").result
        = .error (.uniqueViolation "users_email_key") from rfl] at h
  simp at h

/-- C2 amended: every error the store's create returns — constraint
violations included — is propagated unchanged by SignUp; no store error is
translated at this step. -/
theorem signUp_create_error_propagates {σ : Type} (r : Repo σ) (s : σ)
    (params : SignUpParams) (salt : String) (e : GoErr) (h : BcryptHash)
    (hh : hashPassword params.password salt = .ok h)
    (hex : r.userExistsByEmail s params.email = .ok false)
    (hcr : r.createUser s
        { firstName := params.firstName, lastName := params.lastName,
          dateOfBirth := params.dateOfBirth, email := params.email,
          passwordHash := .wellFormed h, phoneNumber := params.phoneNumber }
        = .error e) :
    signUp r s params salt = ⟨.error e, s, [.existsCheck, .hashCall, .createCall]⟩ := by
  unfold signUp
  rw [hex, hh]
  simp only [hcr]

/-- Witness for the amended C2 at the racing store. -/
theorem signUp_create_error_propagates_witness :
    signUp repoDupInsert () demoParams "SALT"
      = ⟨.error (.uniqueViolation "users_email_key"), (),
         [.existsCheck, .hashCall, .createCall]⟩ :=
  signUp_create_error_propagates repoDupInsert () demoParams "SALT"
    (.uniqueViolation "users_email_key") demoHash rfl rfl rfl

/-- C5: when the user is found but the plaintext password does not match
the stored hash, Login fails with `ErrInvalidPassword`, and no token is
generated or returned. -/
theorem login_wrong_password {σ : Type} (r : Repo σ) (s : σ)
    (email password : String) (now : Int) (u : User)
    (hget : r.getUserByEmail s email = .ok (some u))
    (hver : verifyPassword u.passwordHash password = .error .mismatchedHashAndPassword) :
    login r s email password now = ⟨.error .invalidPassword, s, [.getUserCall, .verifyCall]⟩
    ∧ AuthEvent.tokenCall ∉ (login r s email password now).events := by
  have hrun : login r s email password now
      = ⟨.error .invalidPassword, s, [.getUserCall, .verifyCall]⟩ := by
    unfold login
    simp only [hget]
    rw [hver]
  refine ⟨hrun, ?_⟩
  rw [hrun]
  simp

/-- Witness for C5: Scenario D, the demo user and the wrong password. -/
theorem login_wrong_password_witness :
    login (mkGetRepo demoUser) () "a@x.com" "wrongpass" 1000
      = ⟨.error .invalidPassword, (), [.getUserCall, .verifyCall]⟩ :=
  (login_wrong_password (mkGetRepo demoUser) () "a@x.com" "wrongpass" 1000
    demoUser rfl rfl).1

/-- C10: any failure of password verification — a mismatch or an
unparseable stored hash alike — is returned as the single
`ErrInvalidPassword`; the underlying verification error never escapes, so
a corrupted hash is indistinguishable from a wrong password at the service
boundary. -/
theorem login_verify_error_opaque {σ : Type} (r : Repo σ) (s : σ)
    (email password : String) (now : Int) (u : User) (e : BcryptError)
    (hget : r.getUserByEmail s email = .ok (some u))
    (hver : verifyPassword u.passwordHash password = .error e) :
    login r s email password now
      = ⟨.error .invalidPassword, s, [.getUserCall, .verifyCall]⟩ := by
  unfold login
  simp only [hget]
  rw [hver]

/-- Witness for C10: a stored hash that is not a bcrypt hash at all yields
the same outcome as a wrong password. -/
theorem login_verify_error_opaque_witness :
    login (mkGetRepo demoUserBadHash) () "a@x.com" "pw12345678" 1000
      = ⟨.error .invalidPassword, (), [.getUserCall, .verifyCall]⟩ :=
  login_verify_error_opaque (mkGetRepo demoUserBadHash) () "a@x.com" "pw12345678"
    1000 demoUserBadHash .invalidHash rfl rfl

/-- C6: a token issued by a successful Login at instant `now` carries
subject and user-id claims equal to the authenticated user's identifier,
the fixed issuer, issued-at and not-before equal to `now`, and expiry
exactly `now` plus 24 hours; it is not valid before `now` and is valid
precisely on the 24-hour window. -/
theorem login_token_contents {σ : Type} (r : Repo σ) (s : σ)
    (email password : String) (now : Int) (u : User) (tok : JWTClaims)
    (hget : r.getUserByEmail s email = .ok (some u))
    (hok : (login r s email password now).result = .ok tok) :
    tok.userID = u.id
    ∧ tok.registered.subject = u.id
    ∧ tok.registered.issuer = "splitwise-clone"
    ∧ tok.registered.issuedAt = now
    ∧ tok.registered.notBefore = now
    ∧ tok.registered.expiresAt = now + jwtExpiry
    ∧ jwtExpiry = 24 * 60 * 60
    ∧ (∀ t, t < now → claimsValidAt tok.registered t = false)
    ∧ (∀ t, claimsValidAt tok.registered t = true ↔ now ≤ t ∧ t ≤ now + jwtExpiry) := by
  unfold login at hok
  simp only [hget] at hok
  cases hver : verifyPassword u.passwordHash password with
  | error e => rw [hver] at hok; simp at hok
  | ok _ =>
    rw [hver] at hok
    simp only [generateJWTToken] at hok
    have htok := (Except.ok.inj hok).symm
    subst htok
    refine ⟨rfl, rfl, rfl, rfl, rfl, rfl, rfl, ?_, ?_⟩
    · intro t ht
      simp [claimsValidAt]
      omega
    · intro t
      simp [claimsValidAt]

/-- Witness for C6: the demo user logging in at time 1000 receives the
demo token. -/
theorem login_token_contents_witness :
    demoTok.registered.subject = "42"
    ∧ demoTok.registered.issuer = "splitwise-clone"
    ∧ demoTok.registered.issuedAt = 1000
    ∧ demoTok.registered.notBefore = 1000
    ∧ demoTok.registered.expiresAt = 1000 + 24 * 60 * 60
    ∧ claimsValidAt demoTok.registered 999 = false
    ∧ claimsValidAt demoTok.registered 1000 = true := by
  obtain ⟨-, hsub, hiss, hiat, hnbf, hexp, hwin, hbefore, hiff⟩ :=
    login_token_contents (mkGetRepo demoUser) () "a@x.com" "pw12345678" 1000
      demoUser demoTok rfl rfl
  refine ⟨hsub, hiss, hiat, hnbf, ?_, hbefore 999 (by omega), ?_⟩
  · rw [hexp, hwin]
  · exact (hiff 1000).mpr (by simp [jwtExpiry])

/-- C3: with the Postgres-backed repository, a login for an email with no
matching non-deleted row does not fail with `ErrUserNotFound`: pgx's
`Row.Scan` reports `pgx.ErrNoRows`, the repository returns it as a non-nil
error, and the service propagates it, so the nil-user branch of
`service.Login` is unreachable.  Password verification and token issuance
are indeed not performed. -/
theorem login_unknown_email_propagates_pgx :
    login pgRepo ⟨[], 0, 0⟩ "noone@x.com" "anything" 1000
      = ⟨.error .pgxNoRows, ⟨[], 0, 0⟩, [.getUserCall]⟩
    ∧ GoErr.pgxNoRows ≠ GoErr.userNotFound
    ∧ AuthEvent.verifyCall ∉ (login pgRepo ⟨[], 0, 0⟩ "noone@x.com" "anything" 1000).events
    ∧ AuthEvent.tokenCall ∉ (login pgRepo ⟨[], 0, 0⟩ "noone@x.com" "anything" 1000).events := by
  have hrun : login pgRepo ⟨[], 0, 0⟩ "noone@x.com" "anything" 1000
      = ⟨.error .pgxNoRows, ⟨[], 0, 0⟩, [.getUserCall]⟩ := rfl
  refine ⟨rfl, by decide, ?_, ?_⟩
  · rw [hrun]; simp
  · rw [hrun]; simp

/-! Lemmas about the Postgres-backed store. -/

/-- Unfolding equation for the concrete store's existence query. -/
theorem pgRepo_exists_eq (s : DBState) (e : String) :
    pgRepo.userExistsByEmail s e = .ok (sqlExistsByEmail s.rows e) := rfl

/-- Unfolding equation for the concrete store's insert. -/
theorem pgRepo_createUser_eq (s : DBState) (q : CreateUserParams) :
    pgRepo.createUser s q = sqlInsertUser s q := rfl

/-- A signup whose pre-check sees a live row with the email fails
immediately. -/
theorem signUp_pg_exists (s : DBState) (p : SignUpParams) (salt : String)
    (hex : sqlExistsByEmail s.rows p.email = true) :
    signUp pgRepo s p salt = ⟨.error .userAlreadyExists, s, [.existsCheck]⟩ := by
  unfold signUp
  have hx : pgRepo.userExistsByEmail s p.email = .ok true := by
    show Except.ok (sqlExistsByEmail s.rows p.email) = Except.ok true
    rw [hex]
  rw [hx]

/-- A signup that passes the pre-check but whose insert meets any row —
live or soft-deleted — with the same email fails with the email unique
violation, leaving the table unchanged. -/
theorem signUp_pg_insert_blocked (s : DBState) (p : SignUpParams) (salt : String)
    (hex : sqlExistsByEmail s.rows p.email = false)
    (hany : s.rows.any (fun v => v.email == p.email) = true) :
    signUp pgRepo s p salt
      = ⟨.error (.uniqueViolation "users_email_key"), s,
         [.existsCheck, .hashCall, .createCall]⟩ := by
  unfold signUp
  have hx : pgRepo.userExistsByEmail s p.email = .ok false := by
    show Except.ok (sqlExistsByEmail s.rows p.email) = Except.ok false
    rw [hex]
  simp only [hx, hashPassword_eq, pgRepo_createUser_eq]
  unfold sqlInsertUser
  rw [if_pos hany]

/-- A successful signup against the Postgres store appends exactly one
row, built from the parameters with the freshly generated id, the store
timestamps, the bcrypt hash in place of the plaintext, and a null
deletion timestamp — and it can only have happened when no row at all
carried the email. -/
theorem signUp_pg_success (s : DBState) (p : SignUpParams) (salt : String)
    (u : User) (s' : DBState) (evs : List AuthEvent)
    (h : signUp pgRepo s p salt = ⟨.ok u, s', evs⟩) :
    u = { id := toString s.nextId, firstName := p.firstName, lastName := p.lastName,
          dateOfBirth := p.dateOfBirth, email := p.email,
          passwordHash := .wellFormed
            (BcryptHash.mk "2a" 12 salt (bcryptDigestFn 12 salt p.password)),
          phoneNumber := p.phoneNumber, createdAt := s.clock, updatedAt := s.clock,
          deletedAt := none }
    ∧ s'.rows = s.rows ++ [u]
    ∧ ∀ v ∈ s.rows, v.email ≠ p.email := by
  unfold signUp at h
  have hx : pgRepo.userExistsByEmail s p.email
      = .ok (sqlExistsByEmail s.rows p.email) := rfl
  cases hb : sqlExistsByEmail s.rows p.email with
  | true => rw [hx, hb] at h; simp at h
  | false =>
    rw [hx, hb] at h
    simp only [hashPassword_eq, pgRepo_createUser_eq] at h
    unfold sqlInsertUser at h
    cases hany : s.rows.any (fun v => v.email == p.email) with
    | true => rw [if_pos hany] at h; simp at h
    | false =>
      rw [if_neg (by simp [hany])] at h
      have hall : ∀ v ∈ s.rows, v.email ≠ p.email := by
        intro v hv
        have := List.any_eq_false.mp hany v hv
        simpa using this
      by_cases hph : (p.phoneNumber.isSome
          && s.rows.any (fun v => v.phoneNumber == p.phoneNumber)) = true
      · rw [if_pos hph] at h; simp at h
      · rw [if_neg hph] at h
        simp only [SignUpOutcome.mk.injEq] at h
        obtain ⟨h1, h2, -⟩ := h
        have hu := (Except.ok.inj h1).symm
        refine ⟨hu, ?_, hall⟩
        rw [← h2, hu]

/-- One signup step against the Postgres store either leaves the rows
unchanged or appends one non-deleted row whose email occurred in no prior
row. -/
theorem signUpStep_rows (s : DBState) (i : SignUpParams × String) :
    (signUpStep s i).rows = s.rows
    ∨ ∃ u : User, (signUpStep s i).rows = s.rows ++ [u]
        ∧ u.deletedAt = none
        ∧ s.rows.any (fun v => v.email == u.email) = false := by
  unfold signUpStep
  cases hrun : signUp pgRepo s i.1 i.2 with
  | mk result state events =>
    cases result with
    | ok u =>
      obtain ⟨hu, hrows, -⟩ := signUp_pg_success s i.1 i.2 u state events hrun
      right
      refine ⟨u, hrows, by rw [hu], ?_⟩
      rw [show u.email = i.1.email from by rw [hu]]
      exact List.any_eq_false.mpr (fun v hv => by
        have h0 := signUp_pg_success s i.1 i.2 u state events hrun
        simpa using h0.2.2 v hv)
    | error e =>
      left
      unfold signUp at hrun
      have hx : pgRepo.userExistsByEmail s i.1.email
          = .ok (sqlExistsByEmail s.rows i.1.email) := rfl
      cases hb : sqlExistsByEmail s.rows i.1.email with
      | true =>
        rw [hx, hb] at hrun
        simp only [SignUpOutcome.mk.injEq] at hrun
        rw [← hrun.2.1]
      | false =>
        rw [hx, hb] at hrun
        simp only [hashPassword_eq, pgRepo_createUser_eq] at hrun
        unfold sqlInsertUser at hrun
        split at hrun
        · simp only [SignUpOutcome.mk.injEq] at hrun
          rw [← hrun.2.1]
        · simp at hrun

/-- Rows already in the table survive any signup step. -/
theorem signUpStep_mem_mono (s : DBState) (i : SignUpParams × String)
    (u : User) (hu : u ∈ s.rows) : u ∈ (signUpStep s i).rows := by
  rcases signUpStep_rows s i with h | ⟨w, h, -, -⟩ <;> rw [h] <;> simp [hu]

/-- Rows already in the table survive any sequence of signups. -/
theorem runSignUps_mem_mono (seq : List (SignUpParams × String)) (s : DBState)
    (u : User) (hu : u ∈ s.rows) : u ∈ (runSignUps s seq).rows := by
  induction seq generalizing s with
  | nil => exact hu
  | cons i rest ih => exact ih (signUpStep s i) (signUpStep_mem_mono s i u hu)

/-- Live-row counts split over appended tables. -/
theorem liveCount_append (rows1 rows2 : List User) (e : String) :
    liveCount (rows1 ++ rows2) e = liveCount rows1 e + liveCount rows2 e := by
  simp [liveCount, List.filter_append]

/-- A table with no row at all for an email has live count zero there. -/
theorem liveCount_eq_zero {rows : List User} {e : String}
    (h : ∀ v ∈ rows, v.email ≠ e) : liveCount rows e = 0 := by
  simp only [liveCount, List.length_eq_zero]
  exact List.filter_eq_nil_iff.mpr (fun v hv => by simp [rowLive, h v hv])

/-- Appending a row whose email is wholly fresh preserves the uniqueness
invariant. -/
theorem emailUnique_append (rows : List User) (u : User)
    (hinv : EmailUnique rows)
    (hany : rows.any (fun v => v.email == u.email) = false) :
    EmailUnique (rows ++ [u]) := by
  have hfresh : ∀ v ∈ rows, v.email ≠ u.email := by
    intro v hv
    have := List.any_eq_false.mp hany v hv
    simpa using this
  intro v hv hvdel
  rcases List.mem_append.mp hv with hvrows | hvu
  · have hne : rowLive v.email u = false := by
      simp [rowLive]
      intro he
      exact absurd he.symm (hfresh v hvrows)
    rw [liveCount_append]
    have : liveCount [u] v.email = 0 := by simp [liveCount, List.filter, hne]
    rw [this]
    simpa using hinv v hvrows hvdel
  · have hvu : v = u := by simpa using hvu
    subst hvu
    rw [liveCount_append, liveCount_eq_zero hfresh]
    simp [liveCount, List.filter]
    split <;> simp

/-- One signup step preserves the uniqueness invariant. -/
theorem signUpStep_emailUnique (s : DBState) (i : SignUpParams × String)
    (hinv : EmailUnique s.rows) : EmailUnique (signUpStep s i).rows := by
  rcases signUpStep_rows s i with h | ⟨u, h, -, hany⟩
  · rw [h]; exact hinv
  · rw [h]; exact emailUnique_append s.rows u hinv hany

/-- A sequence of signups preserves the uniqueness invariant. -/
theorem runSignUps_emailUnique (seq : List (SignUpParams × String)) (s : DBState)
    (hinv : EmailUnique s.rows) : EmailUnique (runSignUps s seq).rows := by
  induction seq generalizing s with
  | nil => exact hinv
  | cons i rest ih => exact ih (signUpStep s i) (signUpStep_emailUnique s i hinv)

/-- C7: once a signup for an email succeeds against the Postgres-backed
store, every later signup for that email — after any further signup
sequence — fails with `ErrUserAlreadyExists`, and the table keeps at most
one non-deleted row with that email. -/
theorem signup_uniqueness (s0 : DBState) (p1 : SignUpParams) (salt1 : String)
    (u1 : User) (s1 : DBState) (evs1 : List AuthEvent)
    (hinv : EmailUnique s0.rows)
    (h1 : signUp pgRepo s0 p1 salt1 = ⟨.ok u1, s1, evs1⟩)
    (seq : List (SignUpParams × String)) (p2 : SignUpParams) (salt2 : String)
    (h2 : p2.email = p1.email) :
    (signUp pgRepo (runSignUps s1 seq) p2 salt2).result = .error .userAlreadyExists
    ∧ liveCount (runSignUps s1 seq).rows p1.email ≤ 1 := by
  obtain ⟨hu, hrows, hnone⟩ := signUp_pg_success s0 p1 salt1 u1 s1 evs1 h1
  have hu1mem : u1 ∈ s1.rows := by rw [hrows]; simp
  have humem : u1 ∈ (runSignUps s1 seq).rows := runSignUps_mem_mono seq s1 u1 hu1mem
  have hlive : rowLive p1.email u1 = true := by rw [hu]; simp [rowLive]
  have hex : sqlExistsByEmail (runSignUps s1 seq).rows p2.email = true := by
    rw [h2]
    exact List.any_eq_true.mpr ⟨u1, humem, hlive⟩
  have hstep : signUpStep s0 (p1, salt1) = s1 := by
    unfold signUpStep
    rw [h1]
  constructor
  · rw [signUp_pg_exists (runSignUps s1 seq) p2 salt2 hex]
  · have hinv1 : EmailUnique s1.rows := by
      have hp := signUpStep_emailUnique s0 (p1, salt1) hinv
      rwa [hstep] at hp
    have hinvF := runSignUps_emailUnique seq s1 hinv1
    have hemail : u1.email = p1.email := by rw [hu]
    have hdel : u1.deletedAt = none := by rw [hu]
    have := hinvF u1 humem hdel
    rwa [hemail] at this

/-- Witness for C7: a successful demo signup on an empty table, then a
second signup by someone else for the same email after an intervening
attempt; the table keeps a single live row for the email. -/
theorem signup_uniqueness_witness :
    (signUp pgRepo (runSignUps demoDB1 [(demoParams2, "S2")]) demoParams "S3").result
      = .error .userAlreadyExists
    ∧ liveCount (runSignUps demoDB1 [(demoParams2, "S2")]).rows "a@x.com" ≤ 1 :=
  signup_uniqueness ⟨[], 0, 0⟩ demoParams "SALT" demoCreated demoDB1
    [.existsCheck, .hashCall, .createCall] (by intro u hu; cases hu) rfl
    [(demoParams2, "S2")] demoParams "S3" rfl

/-- C8 counterexample: with only a soft-deleted row holding the email,
both queries report absence, yet the signup does not succeed — the
insert trips the schema's unconditional unique constraint on email and
SignUp returns that raw violation. -/
theorem softDeleted_resignup_cex :
    sqlExistsByEmail [deletedUser] "a@x.com" = false
    ∧ sqlFindByEmail [deletedUser] "a@x.com" = none
    ∧ (signUp pgRepo ⟨[deletedUser], 8, 100⟩ demoParams "SALT").result
        = .error (.uniqueViolation "users_email_key") :=
  ⟨rfl, rfl, rfl⟩

/-- C8 amended: a user with a non-null deletion timestamp is invisible to
`existsByEmail` and to `findByEmail` (the latter surfacing the driver's
no-rows signal), but a signup with that email does not succeed: the
`users` table's unique constraint on email covers soft-deleted rows, so
the insert fails and SignUp returns the constraint violation. -/
theorem softDeleted_excluded_blocked (s : DBState) (e : String)
    (hsome : ∃ u ∈ s.rows, u.email = e ∧ u.deletedAt ≠ none)
    (hall : ∀ u ∈ s.rows, u.email = e → u.deletedAt ≠ none) :
    pgRepo.userExistsByEmail s e = .ok false
    ∧ pgRepo.getUserByEmail s e = .error .pgxNoRows
    ∧ ∀ p : SignUpParams, p.email = e → ∀ salt,
        signUp pgRepo s p salt
          = ⟨.error (.uniqueViolation "users_email_key"), s,
             [.existsCheck, .hashCall, .createCall]⟩ := by
  have hnolive : ∀ v ∈ s.rows, rowLive e v = false := by
    intro v hv
    simp only [rowLive, Bool.and_eq_false_iff]
    by_cases hvm : v.email = e
    · right
      have := hall v hv hvm
      simpa using this
    · left
      simpa using hvm
  have hex : sqlExistsByEmail s.rows e = false := by
    unfold sqlExistsByEmail
    exact List.any_eq_false.mpr (fun v hv => by simp [hnolive v hv])
  have hfind : sqlFindByEmail s.rows e = none :=
    List.find?_eq_none.mpr (fun v hv => by simp [hnolive v hv])
  refine ⟨?_, ?_, ?_⟩
  · show Except.ok (sqlExistsByEmail s.rows e) = Except.ok false
    rw [hex]
  · show (match sqlFindByEmail s.rows e with
      | none => (Except.error .pgxNoRows : Except GoErr (Option User))
      | some u => .ok (some u)) = .error .pgxNoRows
    rw [hfind]
  · intro p hp salt
    obtain ⟨u, hu, hue, -⟩ := hsome
    apply signUp_pg_insert_blocked
    · rw [hp]; exact hex
    · rw [hp]
      exact List.any_eq_true.mpr ⟨u, hu, by simp [hue]⟩

/-- Witness for the amended C8 at the soft-deleted demo row. -/
theorem softDeleted_excluded_blocked_witness :
    pgRepo.userExistsByEmail ⟨[deletedUser], 8, 100⟩ "a@x.com" = .ok false
    ∧ pgRepo.getUserByEmail ⟨[deletedUser], 8, 100⟩ "a@x.com" = .error .pgxNoRows
    ∧ signUp pgRepo ⟨[deletedUser], 8, 100⟩ demoParams "SALT"
        = ⟨.error (.uniqueViolation "users_email_key"), ⟨[deletedUser], 8, 100⟩,
           [.existsCheck, .hashCall, .createCall]⟩ := by
  obtain ⟨h1, h2, h3⟩ := softDeleted_excluded_blocked ⟨[deletedUser], 8, 100⟩ "a@x.com"
    ⟨deletedUser, by simp, rfl, by simp [deletedUser]⟩
    (by intro u hu he; simp only [List.mem_singleton] at hu; rw [hu]; simp [deletedUser])
  exact ⟨h1, h2, h3 demoParams rfl "SALT"⟩

/-- C9: the record a successful SignUp returns carries the bcrypt hash in
place of the plaintext (and the hash string never equals the plaintext),
every other field is the corresponding input, the same record is what a
subsequent lookup retrieves, and the JSON serialization of a user never
includes the password-hash field. -/
theorem signup_no_plaintext (s : DBState) (p : SignUpParams) (salt : String)
    (u : User) (s' : DBState) (evs : List AuthEvent)
    (h : signUp pgRepo s p salt = ⟨.ok u, s', evs⟩) :
    u.passwordHash = .wellFormed
        (BcryptHash.mk "2a" 12 salt (bcryptDigestFn 12 salt p.password))
    ∧ u.passwordHash.render ≠ p.password
    ∧ u.firstName = p.firstName ∧ u.lastName = p.lastName ∧ u.email = p.email
    ∧ u.dateOfBirth = p.dateOfBirth ∧ u.phoneNumber = p.phoneNumber
    ∧ pgRepo.getUserByEmail s' p.email = .ok (some u)
    ∧ (∀ v, userJSON { u with passwordHash := v } = userJSON u)
    ∧ "password_hash" ∉ (userJSON u).map Prod.fst := by
  obtain ⟨hu, hrows, hnone⟩ := signUp_pg_success s p salt u s' evs h
  have hfind : sqlFindByEmail s'.rows p.email = some u := by
    rw [hrows]
    unfold sqlFindByEmail
    rw [List.find?_append]
    have hn : s.rows.find? (rowLive p.email) = none :=
      List.find?_eq_none.mpr (fun v hv => by simp [rowLive, hnone v hv])
    have hy : [u].find? (rowLive p.email) = some u := by
      have : rowLive p.email u = true := by rw [hu]; simp [rowLive]
      simp [List.find?, this]
    rw [hn, hy]
    rfl
  refine ⟨by rw [hu], ?_, by rw [hu], by rw [hu], by rw [hu], by rw [hu], by rw [hu],
    ?_, ?_, ?_⟩
  · rw [hu]
    exact render_ne_password p.password salt 12
  · show (match sqlFindByEmail s'.rows p.email with
      | none => (Except.error .pgxNoRows : Except GoErr (Option User))
      | some w => .ok (some w)) = .ok (some u)
    rw [hfind]
  · intro v
    rfl
  · rw [hu]
    unfold userJSON
    cases p.dateOfBirth <;> cases p.phoneNumber <;> simp

/-- Witness for C9: the demo signup on an empty table. -/
theorem signup_no_plaintext_witness :
    demoCreated.passwordHash.render ≠ "pw12345678"
    ∧ pgRepo.getUserByEmail demoDB1 "a@x.com" = .ok (some demoCreated)
    ∧ "password_hash" ∉ (userJSON demoCreated).map Prod.fst := by
  obtain ⟨-, hren, -, -, -, -, -, hget, -, hkey⟩ :=
    signup_no_plaintext ⟨[], 0, 0⟩ demoParams "SALT" demoCreated demoDB1
      [.existsCheck, .hashCall, .createCall] rfl
  exact ⟨hren, hget, hkey⟩

end Splitwise
